import Mathlib

/-!
Shallow embedding of `src/farcasterd/runtime.rs` (farcaster-node orchestrator
daemon) and proofs about its registry, router, progress pub/sub, stats and
cleanup logic.

Rust `HashSet` values are modelled as lists with insert-if-absent, `HashMap`
values as association lists with replace-on-insert, `VecDeque` as a list with
`push_back` appending at the end.  Machine integers (`u64`) are modelled as
`Nat` with explicit wrap-around `% 2 ^ 64` where the source performs
unchecked arithmetic.  Bus sends are modelled by an oracle
`sendOk : ServiceId → Bool` telling whether the destination endpoint is
reachable; handlers return the mutated runtime together with the list of
attempted sends `(destination, request)`.
-/

namespace Farcaster

/-- `u64` modulus. -/
def U64 : Nat := 2 ^ 64

/-- Wrapping `u64` increment (`x += 1`): for an in-range representative
(`x < 2^64`) this equals `(x + 1) % 2^64`. -/
def u64incr (x : Nat) : Nat := if x + 1 = U64 then 0 else x + 1

/-- Wrapping `u64` decrement (`x -= 1`): for an in-range representative
this equals `(x + 2^64 - 1) % 2^64`; underflow at zero wraps to
`2^64 - 1`. -/
def u64decr (x : Nat) : Nat := if x = 0 then U64 - 1 else x - 1

/-- `farcaster_core::blockchain::Blockchain`. -/
inductive Blockchain
  | Bitcoin
  | Monero
deriving DecidableEq, Repr

/-- `farcaster_core::blockchain::Network`. -/
inductive Network
  | Mainnet
  | Testnet
  | Local
deriving DecidableEq, Repr

/-- Opaque peer socket address (`internet2::addr::NodeAddr`). -/
abbrev NodeAddr := Nat

/-- Opaque 32-byte swap identifier (`farcaster_core::swap::SwapId`). -/
abbrev SwapId := Nat

/-- Syncer task identifier (`syncerd::TaskId`, a `u32` counter). -/
abbrev TaskId := Nat

/-- Opaque public offer; compared structurally (Rust derived `Eq`).  The
`offerId` field stands for the embedded content-addressed offer id. -/
structure PublicOffer where
  offerId : Nat
deriving DecidableEq, Repr

/-- `ServiceId`: tagged identifier naming a bus endpoint.  Only the variants
used by `farcasterd/runtime.rs` are modelled. -/
inductive ServiceId
  | Farcasterd
  | Wallet
  | Database
  | Grpcd
  | Peer (addr : NodeAddr)
  | Swap (swapId : SwapId)
  | Syncer (b : Blockchain) (n : Network)
  | Client (cid : Nat)
deriving DecidableEq, Repr

/-- Swap outcome (`rpc::request::Outcome`). -/
inductive Outcome
  | Buy
  | Refund
  | Punish
  | Abort
deriving DecidableEq, Repr

/-- `rpc::request::FailureCode`. -/
inductive FailureCode
  | Unknown
deriving DecidableEq, Repr

/-- `rpc::request::Progress` payload. -/
inductive ProgressMsg
  | Message (m : String)
  | StateTransition (t : String)
deriving DecidableEq, Repr

/-- `request::ProgressEvent`, the element type of a `SwapProgress` reply. -/
inductive ProgressEvent
  | Message (m : String)
  | StateTransition (t : String)
  | Success (o : Outcome)
  | Failure (code : FailureCode) (info : String)
deriving DecidableEq, Repr

/-- The subset of requests that the `Progress | Success | Failure` arm of
`handle_rpc_ctl` pushes into a progress queue.  Queues only ever hold these
three kinds (the `unreachable!` arm of `ReadProgress` is for anything else),
so the queue element type records exactly them. -/
inductive ProgressReq
  | Progress (p : ProgressMsg)
  | Success (o : Outcome)
  | Failure (code : FailureCode) (info : String)
deriving DecidableEq, Repr

/-- `Stats`: the eleven counters of `farcasterd/runtime.rs` (all `u64`). -/
structure Stats where
  success : Nat
  refund : Nat
  punish : Nat
  abort : Nat
  initialized : Nat
  awaiting_funding_btc : Nat
  awaiting_funding_xmr : Nat
  funded_xmr : Nat
  funded_btc : Nat
  funding_canceled_xmr : Nat
  funding_canceled_btc : Nat
deriving DecidableEq, Repr

/--`Stats::default()`: every counter zero. -/
def Stats.default : Stats :=
  ⟨0, 0, 0, 0, 0, 0, 0, 0, 0, 0, 0⟩

/-- `Stats::incr_outcome`. -/
def Stats.incr_outcome (s : Stats) (o : Outcome) : Stats :=
  match o with
  | .Buy => { s with success := u64incr s.success }
  | .Refund => { s with refund := u64incr s.refund }
  | .Punish => { s with punish := u64incr s.punish }
  | .Abort => { s with abort := u64incr s.abort }

/-- `Stats::incr_initiated`. -/
def Stats.incr_initiated (s : Stats) : Stats :=
  { s with initialized := u64incr s.initialized }

/-- `Stats::incr_awaiting_funding`. -/
def Stats.incr_awaiting_funding (s : Stats) (b : Blockchain) : Stats :=
  match b with
  | .Monero => { s with awaiting_funding_xmr := u64incr s.awaiting_funding_xmr }
  | .Bitcoin => { s with awaiting_funding_btc := u64incr s.awaiting_funding_btc }

/-- `Stats::incr_funded`: bumps the funded counter and performs an unchecked
`-= 1` on the corresponding awaiting-funding counter. -/
def Stats.incr_funded (s : Stats) (b : Blockchain) : Stats :=
  match b with
  | .Monero =>
    { s with
      funded_xmr := u64incr s.funded_xmr
      awaiting_funding_xmr := u64decr s.awaiting_funding_xmr }
  | .Bitcoin =>
    { s with
      funded_btc := u64incr s.funded_btc
      awaiting_funding_btc := u64decr s.awaiting_funding_btc }

/-- `Stats::incr_funding_monero_canceled`. -/
def Stats.incr_funding_monero_canceled (s : Stats) : Stats :=
  { s with
    awaiting_funding_xmr := u64decr s.awaiting_funding_xmr
    funding_canceled_xmr := u64incr s.funding_canceled_xmr }

/-- `Stats::incr_funding_bitcoin_canceled`. -/
def Stats.incr_funding_bitcoin_canceled (s : Stats) : Stats :=
  { s with
    awaiting_funding_btc := u64decr s.awaiting_funding_btc
    funding_canceled_btc := u64incr s.funding_canceled_btc }

/-- Modelled from the spec: `TradeStateMachine` (its file,
`farcasterd/trade_state_machine.rs`, is not under `src/`).  Tagged variants
per spec section 3; `SwapRunning` carries the swap id, the consumed offer,
the optional peer connection, the syncer services in use and the funding
state (blockchain plus human-readable funding info when funding is
currently needed). -/
inductive TradeStateMachine
  | StartMaker
  | StartTaker
  | StartRestore
  | MakerAwaitingTakerCommit (offer : PublicOffer)
  | TakerConnect (offer : PublicOffer)
  | SwapRunning (swapId : SwapId) (offer : PublicOffer) (conn : Option ServiceId)
      (syncers : List ServiceId) (fundingNeeded : Option (Blockchain × String))
  | RestoringSwap (swapId : SwapId) (offer : PublicOffer)
deriving DecidableEq, Repr

/-- Modelled from the spec: `TradeStateMachine::open_offer` — the offer an
advertising maker machine still has open. -/
def TradeStateMachine.open_offer : TradeStateMachine → Option PublicOffer
  | .MakerAwaitingTakerCommit offer => some offer
  | _ => none

/-- Modelled from the spec: `TradeStateMachine::consumed_offer` — the offer
after commit. -/
def TradeStateMachine.consumed_offer : TradeStateMachine → Option PublicOffer
  | .TakerConnect offer => some offer
  | .SwapRunning _ offer _ _ _ => some offer
  | .RestoringSwap _ offer => some offer
  | _ => none

/-- Modelled from the spec: `TradeStateMachine::swap_id`. -/
def TradeStateMachine.swap_id : TradeStateMachine → Option SwapId
  | .SwapRunning swapId _ _ _ _ => some swapId
  | .RestoringSwap swapId _ => some swapId
  | _ => none

/-- Modelled from the spec: `TradeStateMachine::syncers`. -/
def TradeStateMachine.syncers : TradeStateMachine → List ServiceId
  | .SwapRunning _ _ _ syncers _ => syncers
  | _ => []

/-- Modelled from the spec: `TradeStateMachine::get_connection`. -/
def TradeStateMachine.get_connection : TradeStateMachine → Option ServiceId
  | .SwapRunning _ _ conn _ _ => conn
  | _ => none

/-- Modelled from the spec: `TradeStateMachine::needs_funding_monero` —
the funding info of a running swap currently awaiting Monero funding. -/
def TradeStateMachine.needs_funding_monero : TradeStateMachine → Option String
  | .SwapRunning _ _ _ _ (some (.Monero, info)) => some info
  | _ => none

/-- Modelled from the spec: `TradeStateMachine::needs_funding_bitcoin`. -/
def TradeStateMachine.needs_funding_bitcoin : TradeStateMachine → Option String
  | .SwapRunning _ _ _ _ (some (.Bitcoin, info)) => some info
  | _ => none

/-- Modelled from the spec: `SyncerStateMachine`
(`farcasterd/syncer_state_machine.rs` is not under `src/`). -/
inductive SyncerStateMachine
  | Start
  | AwaitingSweep (taskId : TaskId) (syncer : ServiceId)
deriving DecidableEq, Repr

/-- Modelled from the spec: `SyncerStateMachine::task_id`. -/
def SyncerStateMachine.task_id : SyncerStateMachine → Option TaskId
  | .Start => none
  | .AwaitingSweep taskId _ => some taskId

/-- Modelled from the spec: `SyncerStateMachine::syncer`. -/
def SyncerStateMachine.syncer : SyncerStateMachine → Option ServiceId
  | .Start => none
  | .AwaitingSweep _ syncer => some syncer

/-- `HashSet::insert` (ignoring the returned flag): add if absent. -/
def setInsert {α : Type} [DecidableEq α] (s : List α) (a : α) : List α :=
  if a ∈ s then s else s ++ [a]

/-- `HashSet::remove`, returning whether the element was present together
with the resulting set. -/
def setRemove {α : Type} [DecidableEq α] (s : List α) (a : α) : Bool × List α :=
  (decide (a ∈ s), s.erase a)

/-- Association-list lookup (`HashMap::get`). -/
def alistGet {α β : Type} [DecidableEq α] : List (α × β) → α → Option β
  | [], _ => none
  | (k, v) :: rest, a => if k = a then some v else alistGet rest a

/-- Association-list insert-or-replace (`HashMap::insert`). -/
def alistPut {α β : Type} [DecidableEq α] : List (α × β) → α → β → List (α × β)
  | [], a, b => [(a, b)]
  | (k, v) :: rest, a, b =>
    if k = a then (a, b) :: rest else (k, v) :: alistPut rest a b

/-- Association-list removal (`HashMap::remove`, drops the value). -/
def alistDrop {α β : Type} [DecidableEq α] : List (α × β) → α → List (α × β)
  | [], _ => []
  | (k, v) :: rest, a => if k = a then rest else (k, v) :: alistDrop rest a

/-- `NodeInfo` reply payload (`rpc::request::NodeInfo`), with durations as
plain numbers of seconds. -/
structure NodeInfoData where
  listens : List Nat
  uptime : Nat
  since : Nat
  peers : List NodeAddr
  swaps : List SwapId
  offers : List PublicOffer
deriving DecidableEq, Repr

/-- The bus requests consumed and produced by `farcasterd/runtime.rs` that
the verified handlers need.  `StringReply` is Rust's `Request::String`. -/
inductive Request
  | Hello
  | GetKeys
  | Keys (sk pk : Nat)
  | GetInfo
  | NodeInfo (info : NodeInfoData)
  | Progress (p : ProgressMsg)
  | Success (o : Outcome)
  | Failure (code : FailureCode) (info : String)
  | ReadProgress (swapId : SwapId)
  | SwapProgress (events : List ProgressEvent)
  | SubscribeProgress (swapId : SwapId)
  | UnsubscribeProgress (swapId : SwapId)
  | NeedsFunding (b : Blockchain)
  | StringReply (s : String)
  | PeerdTerminated
  | MakeOffer
  | TakeOffer
  | RestoreCheckpoint
  | RevokeOffer (offer : PublicOffer)
  | TakerCommit (offer : PublicOffer)
  | LaunchSwap (offer : PublicOffer)
  | PeerdUnreachable
  | FundingInfo
  | FundingCanceled (b : Blockchain)
  | FundingCompleted (b : Blockchain)
  | SwapOutcome (o : Outcome)
  | SweepAddress
  | SweepSuccess (id : TaskId)
  | Terminate
  | RemoveCheckpoint (swapId : SwapId)
deriving DecidableEq, Repr

/-- The queue element turned back into the request it was cloned from
(used when replaying a queue to a subscriber). -/
def ProgressReq.toRequest : ProgressReq → Request
  | .Progress p => .Progress p
  | .Success o => .Success o
  | .Failure code info => .Failure code info

/-- The `Runtime` state owned by the dispatch loop.  `identity` is always
`ServiceId::Farcasterd`; `node_secret_key`/`node_public_key` are merged
into `node_keys`; `started` and clock readings are seconds since the epoch. -/
structure Runtime where
  started : Nat
  node_keys : Option (Nat × Nat)
  listens : List Nat
  spawning_services : List ServiceId
  registered_services : List ServiceId
  public_offers : List PublicOffer
  progress : List (ServiceId × List ProgressReq)
  progress_subscriptions : List (ServiceId × List ServiceId)
  stats : Stats
  syncer_task_counter : Nat
  trade_state_machines : List TradeStateMachine
  syncer_state_machines : List (TaskId × SyncerStateMachine)
deriving DecidableEq, Repr

/-- The runtime as built by `run` before any request is handled. -/
def Runtime.initial (started : Nat) : Runtime :=
  ⟨started, none, [], [], [], [], [], [], Stats.default, 0, [], []⟩

/-- `Runtime::consumed_offers_contains` (offers compared by `offer.id()`,
which the model folds into `PublicOffer` equality). -/
def Runtime.consumed_offers_contains (rt : Runtime) (offer : PublicOffer) : Bool :=
  (rt.trade_state_machines.filterMap TradeStateMachine.consumed_offer).any
    (fun tsmOffer => tsmOffer == offer)

/-- `Runtime::running_swaps_contain`. -/
def Runtime.running_swaps_contain (rt : Runtime) (swapId : SwapId) : Bool :=
  (rt.trade_state_machines.filterMap TradeStateMachine.swap_id).any
    (fun tsmSwapId => tsmSwapId == swapId)

/-- `Runtime::syncer_has_client`: some trade machine uses the syncer, or
some syncer machine's `syncer()` equals it. -/
def Runtime.syncer_has_client (rt : Runtime) (syncerd : ServiceId) : Bool :=
  rt.trade_state_machines.any
      (fun tsm => tsm.syncers.any (fun clientSyncer => clientSyncer == syncerd))
    || ((rt.syncer_state_machines.map Prod.snd).filterMap SyncerStateMachine.syncer).any
      (fun clientSyncer => clientSyncer == syncerd)

/-- `Runtime::connection_has_swap_client`. -/
def Runtime.connection_has_swap_client (rt : Runtime) (peerd : ServiceId) : Bool :=
  (rt.trade_state_machines.filterMap TradeStateMachine.get_connection).any
    (fun clientConnection => clientConnection == peerd)

/-- `Runtime::count_syncers`. -/
def Runtime.count_syncers (rt : Runtime) : Nat :=
  (rt.registered_services.filter
    (fun s => match s with | .Syncer _ _ => true | _ => false)).length

/-- `Runtime::count_connections`. -/
def Runtime.count_connections (rt : Runtime) : Nat :=
  (rt.registered_services.filter
    (fun s => match s with | .Peer _ => true | _ => false)).length

/-- `Runtime::get_open_connections`. -/
def Runtime.get_open_connections (rt : Runtime) : List NodeAddr :=
  rt.registered_services.filterMap
    (fun s => match s with | .Peer n => some n | _ => none)

/-- `Runtime::services_ready`: `Ok` once both Wallet and Database have
registered, otherwise the corresponding "still starting" error. -/
def Runtime.services_ready (rt : Runtime) : Except String Unit :=
  if ServiceId.Wallet ∉ rt.registered_services then
    .error "Farcaster not ready yet, walletd still starting"
  else if ServiceId.Database ∉ rt.registered_services then
    .error "Farcaster not ready yet, databased still starting"
  else
    .ok ()

/-- Modelled from the spec: the advance function
`TradeStateMachine::next(event, runtime)` lives in
`farcasterd/trade_state_machine.rs`, which is not under `src/`.  Spec
section 4.4: `next` returns `Some` to continue and `None` when the machine
terminated; none of the spec's transitions touches the machine collections
themselves, so the transition is kept abstract as a function of the machine,
the request and its source. -/
abbrev NextTrade := TradeStateMachine → Request → ServiceId → Option TradeStateMachine

/-- Modelled from the spec: `SyncerStateMachine::next` of
`farcasterd/syncer_state_machine.rs` (not under `src/`), kept abstract the
same way. -/
abbrev NextSyncer := SyncerStateMachine → Request → ServiceId → Option SyncerStateMachine

/-- The registry mutation and sends performed by the `Request::Hello` arm of
`handle_rpc_ctl`, before the broadcast to the state machines.  Returns the
new runtime and the attempted sends. -/
def helloRegistryUpdate (rt : Runtime) (source : ServiceId) :
    Runtime × List (ServiceId × Request) :=
  match source with
  | .Farcasterd => (rt, [])
  | .Database =>
    ({ rt with registered_services := setInsert rt.registered_services source }, [])
  | .Wallet =>
    ({ rt with registered_services := setInsert rt.registered_services source },
     [(source, Request.GetKeys)])
  | .Peer _ =>
    ({ rt with registered_services := setInsert rt.registered_services source }, [])
  | .Swap _ => (rt, [])
  | .Syncer _ _ =>
    let (removed, spawning) := setRemove rt.spawning_services source
    if removed then
      ({ rt with
          spawning_services := spawning
          registered_services := setInsert rt.registered_services source }, [])
    else
      (rt, [])
  | _ => (rt, [])

/-- The broadcast loop over the drained trade state machines in the
`Request::Hello` arm: each machine is advanced once and pushed back iff its
transition returned a successor. -/
def helloBroadcastTrade (nextT : NextTrade) (source : ServiceId) :
    List TradeStateMachine → List TradeStateMachine → List TradeStateMachine
  | [], acc => acc
  | tsm :: rest, acc =>
    match nextT tsm Request.Hello source with
    | some newTsm => helloBroadcastTrade nextT source rest (acc ++ [newTsm])
    | none => helloBroadcastTrade nextT source rest acc

/-- The broadcast loop over the drained syncer state machines: a surviving
machine is reinserted under its original `TaskId` key. -/
def helloBroadcastSyncer (nextS : NextSyncer) (source : ServiceId) :
    List (TaskId × SyncerStateMachine) → List (TaskId × SyncerStateMachine) →
      List (TaskId × SyncerStateMachine)
  | [], acc => acc
  | (taskId, ssm) :: rest, acc =>
    match nextS ssm Request.Hello source with
    | some newSsm => helloBroadcastSyncer nextS source rest (alistPut acc taskId newSsm)
    | none => helloBroadcastSyncer nextS source rest acc

/-- The full `Request::Hello` arm of `handle_rpc_ctl`: registry update, then
broadcast of the Hello to every trade and syncer state machine. -/
def helloHandler (nextT : NextTrade) (nextS : NextSyncer) (rt : Runtime)
    (source : ServiceId) : Runtime × List (ServiceId × Request) :=
  let rtOuts := helloRegistryUpdate rt source
  ({ rtOuts.1 with
      trade_state_machines :=
        helloBroadcastTrade nextT source rtOuts.1.trade_state_machines []
      syncer_state_machines :=
        helloBroadcastSyncer nextS source rtOuts.1.syncer_state_machines [] },
   rtOuts.2)

/-- The `Request::GetInfo` arm of `handle_rpc_ctl`: reply to the source with
a `NodeInfo`.  `now` is the `SystemTime::now()` reading;
`duration_since(started).unwrap_or(0)` clamps a backwards clock at zero. -/
def getInfoHandler (now : Nat) (rt : Runtime) (source : ServiceId) :
    List (ServiceId × Request) :=
  [(source,
    Request.NodeInfo
      { listens := rt.listens
        uptime := if rt.started ≤ now then now - rt.started else 0
        since := rt.started
        peers := rt.get_open_connections
        swaps := rt.trade_state_machines.filterMap TradeStateMachine.swap_id
        offers := rt.trade_state_machines.filterMap TradeStateMachine.open_offer })]

/-- `Runtime::notify_subscribed_clients`: forward the request to every
subscriber of `source`, dropping subscribers whose send fails.  Returns the
new subscription map and the attempted sends. -/
def notify_subscribed_clients (sendOk : ServiceId → Bool) (rt : Runtime)
    (source : ServiceId) (req : Request) :
    List (ServiceId × List ServiceId) × List (ServiceId × Request) :=
  match alistGet rt.progress_subscriptions source with
  | some subs =>
    (alistPut rt.progress_subscriptions source (subs.filter sendOk),
     subs.map (fun sub => (sub, req)))
  | none => (rt.progress_subscriptions, [])

/-- The `Progress | Success | Failure` arm of `handle_rpc_ctl`: append the
request to the queue keyed by the raw source (creating the queue on first
occurrence), then notify the subscribers of that source. -/
def progressHandler (sendOk : ServiceId → Bool) (rt : Runtime)
    (source : ServiceId) (req : ProgressReq) :
    Runtime × List (ServiceId × Request) :=
  let queue := match alistGet rt.progress source with
    | some q => q
    | none => []
  let rt1 := { rt with progress := alistPut rt.progress source (queue ++ [req]) }
  let (subs, outs) := notify_subscribed_clients sendOk rt1 source req.toRequest
  ({ rt1 with progress_subscriptions := subs }, outs)

/-- The mapping applied to each queued request inside the `ReadProgress`
arm (`Progress::Message`, `Progress::StateTransition`, `Success`,
`Failure`; the `unreachable!` arm cannot fire because queues only hold
these kinds). -/
def progressEventOf : ProgressReq → ProgressEvent
  | .Progress (.Message m) => .Message m
  | .Progress (.StateTransition t) => .StateTransition t
  | .Success s => .Success s
  | .Failure code info => .Failure code info

/-- The `ReadProgress(swap_id)` arm of `handle_rpc_ctl`: reply with the
whole queue as one `SwapProgress`, or with the appropriate failure. -/
def readProgressHandler (rt : Runtime) (source : ServiceId) (swapId : SwapId) :
    Runtime × List (ServiceId × Request) :=
  match alistGet rt.progress (ServiceId.Swap swapId) with
  | some queue =>
    (rt, [(source, Request.SwapProgress (queue.map progressEventOf))])
  | none =>
    let info := if rt.running_swaps_contain swapId then
        "No progress made yet on this swap"
      else
        "Unknown swapd"
    (rt, [(source, Request.Failure FailureCode.Unknown info)])

/-- The `SubscribeProgress(swap_id)` arm of `handle_rpc_ctl`: if the swap is
running or has a progress queue, record the subscriber and replay the whole
queue to it; otherwise reply `Failure(Unknown, "Unknown swapd")`. -/
def subscribeProgressHandler (rt : Runtime) (source : ServiceId)
    (swapId : SwapId) : Runtime × List (ServiceId × Request) :=
  let service := ServiceId.Swap swapId
  if rt.running_swaps_contain swapId
      || (alistGet rt.progress service).isSome then
    let subs := match alistGet rt.progress_subscriptions service with
      | some subscribed =>
        alistPut rt.progress_subscriptions service (setInsert subscribed source)
      | none => alistPut rt.progress_subscriptions service [source]
    let replay := match alistGet rt.progress service with
      | some queue => queue.map (fun req => (source, req.toRequest))
      | none => []
    ({ rt with progress_subscriptions := subs }, replay)
  else
    (rt, [(source, Request.Failure FailureCode.Unknown "Unknown swapd")])

/-- The `UnsubscribeProgress(swap_id)` arm of `handle_rpc_ctl`. -/
def unsubscribeProgressHandler (rt : Runtime) (source : ServiceId)
    (swapId : SwapId) : Runtime :=
  let service := ServiceId.Swap swapId
  match alistGet rt.progress_subscriptions service with
  | some subscribed =>
    let remaining := subscribed.erase source
    if remaining.isEmpty then
      { rt with progress_subscriptions := alistDrop rt.progress_subscriptions service }
    else
      { rt with progress_subscriptions := alistPut rt.progress_subscriptions service remaining }
  | none => rt

/-- The per-service keep-predicate of the `registered_services` rebuild in
`Runtime::clean_up_after_swap`.  A clientless Peer or Syncer is sent
`Terminate` and is kept in the set exactly when that send errors
(`.is_err()`); every other service is kept. -/
def cleanupKeep (sendOk : ServiceId → Bool) (rt : Runtime) (service : ServiceId) : Bool :=
  match service with
  | .Peer _ =>
    if !rt.connection_has_swap_client service then !sendOk service else true
  | .Syncer _ _ =>
    if !rt.syncer_has_client service then !sendOk service else true
  | _ => true

/-- The `Terminate` sends attempted by the `registered_services` rebuild in
`Runtime::clean_up_after_swap` (one per clientless Peer or Syncer). -/
def cleanupSends (rt : Runtime) : List (ServiceId × Request) :=
  rt.registered_services.filterMap (fun service =>
    match service with
    | .Peer _ =>
      if !rt.connection_has_swap_client service then some (service, Request.Terminate)
      else none
    | .Syncer _ _ =>
      if !rt.syncer_has_client service then some (service, Request.Terminate)
      else none
    | _ => none)

/-- `Runtime::clean_up_after_swap`: send `Terminate` to the swap and
`RemoveCheckpoint` to the database (both with `?`, so a failed send aborts
with an error), then rebuild `registered_services` through `cleanupKeep`.
Returns the new runtime and the attempted sends. -/
def clean_up_after_swap (sendOk : ServiceId → Bool) (rt : Runtime) (swapId : SwapId) :
    Except Unit (Runtime × List (ServiceId × Request)) :=
  if !sendOk (ServiceId.Swap swapId) then .error ()
  else if !sendOk ServiceId.Database then .error ()
  else
    .ok
      ({ rt with
          registered_services := rt.registered_services.filter (cleanupKeep sendOk rt) },
       (ServiceId.Swap swapId, Request.Terminate) ::
         (ServiceId.Database, Request.RemoveCheckpoint swapId) :: cleanupSends rt)

/-- `Vec::position` followed by `Vec::remove`: take out the first element
satisfying the predicate, leaving the rest in order. -/
def extractFirst {α : Type} (p : α → Bool) : List α → Option α × List α
  | [] => (none, [])
  | x :: xs =>
    if p x then (some x, xs)
    else
      let (r, rest) := extractFirst p xs
      (r, x :: rest)

/-- The router's closure for `TakerCommit`/`RevokeOffer`: the machine's
`open_offer()` equals the request's offer. -/
def matchesOpenOffer (offer : PublicOffer) (tsm : TradeStateMachine) : Bool :=
  match tsm.open_offer with
  | some tsmPublicOffer => tsmPublicOffer == offer
  | none => false

/-- The router's closure for `LaunchSwap`: the machine's `consumed_offer()`
equals the request's offer. -/
def matchesConsumedOffer (offer : PublicOffer) (tsm : TradeStateMachine) : Bool :=
  match tsm.consumed_offer with
  | some tsmPublicOffer => tsmPublicOffer == offer
  | none => false

/-- The router's closure for the five `Swap`-sourced events: the machine's
`swap_id()` equals the source's swap id. -/
def matchesSwapId (swapId : SwapId) (tsm : TradeStateMachine) : Bool :=
  match tsm.swap_id with
  | some tsmSwapId => tsmSwapId == swapId
  | none => false

/-- `Runtime::match_request_to_trade_state_machine`: start requests yield a
fresh start state; lookup requests remove and return the first machine with
the matching correlation key. -/
def match_request_to_trade_state_machine (rt : Runtime) (req : Request)
    (source : ServiceId) : Option TradeStateMachine × Runtime :=
  match req, source with
  | .RestoreCheckpoint, _ => (some .StartRestore, rt)
  | .MakeOffer, _ => (some .StartMaker, rt)
  | .TakeOffer, _ => (some .StartTaker, rt)
  | .TakerCommit offer, _ | .RevokeOffer offer, _ =>
    let (m, rest) := extractFirst (matchesOpenOffer offer) rt.trade_state_machines
    (m, { rt with trade_state_machines := rest })
  | .LaunchSwap offer, _ =>
    let (m, rest) := extractFirst (matchesConsumedOffer offer) rt.trade_state_machines
    (m, { rt with trade_state_machines := rest })
  | .PeerdUnreachable, .Swap swapId
  | .FundingInfo, .Swap swapId
  | .FundingCanceled _, .Swap swapId
  | .FundingCompleted _, .Swap swapId
  | .SwapOutcome _, .Swap swapId =>
    let (m, rest) := extractFirst (matchesSwapId swapId) rt.trade_state_machines
    (m, { rt with trade_state_machines := rest })
  | _, _ => (none, rt)

/-- `Runtime::match_request_to_syncer_state_machine`: `SweepAddress` yields
a fresh `Start`; `SweepSuccess{id}` removes and returns the machine keyed by
`id`. -/
def match_request_to_syncer_state_machine (rt : Runtime) (req : Request)
    (_source : ServiceId) : Option SyncerStateMachine × Runtime :=
  match req with
  | .SweepAddress => (some .Start, rt)
  | .SweepSuccess id =>
    (alistGet rt.syncer_state_machines id,
     { rt with syncer_state_machines := alistDrop rt.syncer_state_machines id })
  | _ => (none, rt)

/-- The start-state constructors of the trade router (correlation rules
1-3): which fresh machine a start request creates. -/
def startTradeState : Request → Option TradeStateMachine
  | .RestoreCheckpoint => some .StartRestore
  | .MakeOffer => some .StartMaker
  | .TakeOffer => some .StartTaker
  | _ => none

/-- The lookup key of the trade router (correlation rules 4-6): which
machine predicate a lookup request selects, if any. -/
def tradeRouteKey (req : Request) (source : ServiceId) :
    Option (TradeStateMachine → Bool) :=
  match req, source with
  | .TakerCommit offer, _ | .RevokeOffer offer, _ => some (matchesOpenOffer offer)
  | .LaunchSwap offer, _ => some (matchesConsumedOffer offer)
  | .PeerdUnreachable, .Swap swapId
  | .FundingInfo, .Swap swapId
  | .FundingCanceled _, .Swap swapId
  | .FundingCompleted _, .Swap swapId
  | .SwapOutcome _, .Swap swapId => some (matchesSwapId swapId)
  | _, _ => none

/-- `Runtime::process_request_with_state_machines`: try the trade router,
then the syncer router; advance the matched machine once and reinsert it iff
its transition returned a successor (a successor syncer machine without a
task id is logged as an error and dropped); with no match at all, log a
warning and leave the runtime unchanged. -/
def process_request_with_state_machines (nextT : NextTrade) (nextS : NextSyncer)
    (rt : Runtime) (req : Request) (source : ServiceId) : Runtime :=
  match match_request_to_trade_state_machine rt req source with
  | (some tsm, rt1) =>
    match nextT tsm req source with
    | some newTsm =>
      { rt1 with trade_state_machines := rt1.trade_state_machines ++ [newTsm] }
    | none => rt1
  | (none, _) =>
    match match_request_to_syncer_state_machine rt req source with
    | (some ssm, rt1) =>
      match nextS ssm req source with
      | some newSsm =>
        match newSsm.task_id with
        | some taskId =>
          { rt1 with
              syncer_state_machines := alistPut rt1.syncer_state_machines taskId newSsm }
        | none => rt1
      | none => rt1
    | (none, _) => rt

/-- `usize` subtraction with its panic on underflow made explicit. -/
def checkedSub (a b : Nat) : Option Nat :=
  if b ≤ a then some (a - b) else none

/-- The formatting closure of the `NeedsFunding` arms: append a newline to
every funding info whose index is below `len - 1` (`none` models the
underflow panic of `len - 1` at `len = 0`). -/
def fmtFundingInfo (len i : Nat) (info : String) : Option String :=
  match checkedSub len 1 with
  | some lastIdx => some (if i < lastIdx then info ++ "\n" else info)
  | none => none

/-- `collect::<String>()`: concatenation of all the parts in order. -/
def concatStrings : List String → String
  | [] => ""
  | part :: rest => part ++ concatStrings rest

/-- Map a possibly-panicking step over a list, propagating a panic
(`none`) of any element. -/
def mapPanics {α β : Type} (g : α → Option β) : List α → Option (List β)
  | [] => some []
  | a :: rest =>
    match g a with
    | some b => (mapPanics g rest).map (fun bs => b :: bs)
    | none => none

/-- The `enumerate().map(..).collect::<String>()` pipeline of the
`NeedsFunding` arms over the collected funding infos. -/
def needsFundingReplyBody (infos : List String) : Option String :=
  (mapPanics (fun p => fmtFundingInfo infos.length p.1 p.2) infos.enum).map
    (fun parts => concatStrings parts)

/-- The `NeedsFunding(blockchain)` arms of `handle_rpc_ctl`: collect the
funding infos of the trade machines needing funding on that blockchain and
reply with the formatted string (`none` models a panic, which never
happens — see `C10`). -/
def needsFundingHandler (rt : Runtime) (source : ServiceId) (b : Blockchain) :
    Option (List (ServiceId × Request)) :=
  let infos := match b with
    | .Monero => rt.trade_state_machines.filterMap TradeStateMachine.needs_funding_monero
    | .Bitcoin => rt.trade_state_machines.filterMap TradeStateMachine.needs_funding_bitcoin
  (needsFundingReplyBody infos).map (fun res => [(source, Request.StringReply res)])

/-- Newline-joined concatenation: the intended reading of "funding infos
joined by newlines" (empty string for the empty list). -/
def joinNl : List String → String
  | [] => ""
  | [info] => info
  | info :: rest@(_ :: _) => info ++ "\n" ++ joinNl rest

/-- The awaiting-funding counter of a blockchain. -/
def awaitingOf (s : Stats) : Blockchain → Nat
  | .Bitcoin => s.awaiting_funding_btc
  | .Monero => s.awaiting_funding_xmr

/-- The funded counter of a blockchain. -/
def fundedOf (s : Stats) : Blockchain → Nat
  | .Bitcoin => s.funded_btc
  | .Monero => s.funded_xmr

/-- The funding-canceled counter of a blockchain. -/
def canceledOf (s : Stats) : Blockchain → Nat
  | .Bitcoin => s.funding_canceled_btc
  | .Monero => s.funding_canceled_xmr

/-- Dispatch of the two funding-canceled methods by blockchain (the
`FundingCanceled(blockchain)` path calls the matching one). -/
def incrFundingCanceled (s : Stats) : Blockchain → Stats
  | .Bitcoin => s.incr_funding_bitcoin_canceled
  | .Monero => s.incr_funding_monero_canceled

/-- The blockchain whose counters an operation must not touch. -/
def otherChain : Blockchain → Blockchain
  | .Bitcoin => .Monero
  | .Monero => .Bitcoin

/-- All counters not involved in a funded/canceled transition on
blockchain `b` agree between `s₂` and `s₁`. -/
def statsUntouched (s₂ s₁ : Stats) (b : Blockchain) : Prop :=
  s₂.success = s₁.success ∧ s₂.refund = s₁.refund ∧ s₂.punish = s₁.punish
    ∧ s₂.abort = s₁.abort ∧ s₂.initialized = s₁.initialized
    ∧ awaitingOf s₂ (otherChain b) = awaitingOf s₁ (otherChain b)
    ∧ fundedOf s₂ (otherChain b) = fundedOf s₁ (otherChain b)
    ∧ canceledOf s₂ (otherChain b) = canceledOf s₁ (otherChain b)

/-- Concrete stats fixture: exactly one Bitcoin funding awaited. -/
def statsW : Stats :=
  { Stats.default with awaiting_funding_btc := 1 }

/-- Send oracle fixture: every endpoint reachable except syncers. -/
def sendOkC1 : ServiceId → Bool
  | ServiceId.Syncer _ _ => false
  | _ => true

/-- Runtime fixture: one registered syncer, no machines referencing it. -/
def rtC1 : Runtime :=
  { Runtime.initial 0 with
      registered_services := [ServiceId.Syncer Blockchain.Bitcoin Network.Testnet] }

/-- Runtime fixture: swap 1 has one queued progress entry. -/
def rtC8 : Runtime :=
  { Runtime.initial 0 with
      progress := [(ServiceId.Swap 1, [ProgressReq.Success Outcome.Buy])] }

/-- Runtime fixture: swap 5 has a queue and two subscribers. -/
def rtC9 : Runtime :=
  { Runtime.initial 0 with
      progress := [(ServiceId.Swap 5, [ProgressReq.Progress (ProgressMsg.Message "a")])]
      progress_subscriptions :=
        [(ServiceId.Swap 5, [ServiceId.Client 7, ServiceId.Client 8])] }

/-- Send oracle fixture: every endpoint reachable except client 8. -/
def sendOkC9 : ServiceId → Bool
  | ServiceId.Client 8 => false
  | _ => true

/-- Runtime fixture: swap 9 is running, with no progress queue yet. -/
def rtC7 : Runtime :=
  { Runtime.initial 0 with
      trade_state_machines :=
        [TradeStateMachine.SwapRunning 9 { offerId := 1 } none [] none] }

/-- Transition fixture: taker machines terminate, everything else stays. -/
def nextTW : NextTrade := fun tsm _ _ =>
  match tsm with
  | TradeStateMachine.StartTaker => none
  | t => some t

/-- Transition fixture: `Start` machines terminate, awaiting ones stay. -/
def nextSW : NextSyncer := fun ssm _ _ =>
  match ssm with
  | SyncerStateMachine.Start => none
  | s => some s

/-- Runtime fixture: two trade machines and two keyed syncer machines. -/
def rtC6 : Runtime :=
  { Runtime.initial 0 with
      trade_state_machines := [TradeStateMachine.StartMaker, TradeStateMachine.StartTaker]
      syncer_state_machines :=
        [(1, SyncerStateMachine.AwaitingSweep 1
              (ServiceId.Syncer Blockchain.Monero Network.Mainnet)),
         (2, SyncerStateMachine.Start)] }

/-- C4, counterexample: the claim quantifies over *every* sequence of
`Stats` operations, but calling `incr_funded(Bitcoin)` on the default stats
(awaiting counter zero) does not decrement the awaiting counter by one:
the unchecked `u64` subtraction underflows and wraps to `2^64 - 1`. -/
theorem C4_counterexample :
    ¬ ((Stats.default.incr_funded Blockchain.Bitcoin).awaiting_funding_btc + 1
        = Stats.default.awaiting_funding_btc)
      ∧ (Stats.default.incr_funded Blockchain.Bitcoin).awaiting_funding_btc
        = U64 - 1 := by
  constructor
  · intro h
    simp only [Stats.incr_funded, Stats.default, u64decr, U64] at h
    omega
  · rfl

/-- C4 (amended): whenever the corresponding awaiting-funding counter is
positive (and no counter is at the wrap-around bound `2^64`), `incr_funded`
decrements the awaiting counter by exactly one and increments the funded
counter by exactly one, the funding-canceled transition decrements the
awaiting counter by exactly one and increments the funding-canceled counter
by exactly one, and both leave every other counter unchanged. -/
theorem C4_stats_funding_transitions (s : Stats) (b : Blockchain)
    (hpos : 0 < awaitingOf s b) (hlt : awaitingOf s b < U64)
    (hfun : fundedOf s b + 1 < U64) (hcan : canceledOf s b + 1 < U64) :
    (awaitingOf (s.incr_funded b) b = awaitingOf s b - 1
      ∧ fundedOf (s.incr_funded b) b = fundedOf s b + 1
      ∧ canceledOf (s.incr_funded b) b = canceledOf s b
      ∧ statsUntouched (s.incr_funded b) s b)
    ∧ (awaitingOf (incrFundingCanceled s b) b = awaitingOf s b - 1
      ∧ canceledOf (incrFundingCanceled s b) b = canceledOf s b + 1
      ∧ fundedOf (incrFundingCanceled s b) b = fundedOf s b
      ∧ statsUntouched (incrFundingCanceled s b) s b) := by
  cases b
  all_goals
    simp only [awaitingOf, fundedOf, canceledOf, otherChain, statsUntouched,
      incrFundingCanceled, Stats.incr_funded, Stats.incr_funding_bitcoin_canceled,
      Stats.incr_funding_monero_canceled, u64incr, u64decr, U64] at *
  all_goals repeat' apply And.intro
  all_goals first
  | trivial
  | (split_ifs <;> omega)

/-- C4, witness: the amended theorem applied at the fixture with one
awaited Bitcoin funding. -/
theorem C4_witness :
    awaitingOf (Stats.incr_funded statsW Blockchain.Bitcoin) Blockchain.Bitcoin = 0 :=
  (C4_stats_funding_transitions statsW Blockchain.Bitcoin (by decide) (by decide)
    (by decide) (by decide)).1.1

/-- C2, counterexample: a Hello from a Syncer that is in neither the
spawning nor the registered set logs an error but does *not* accept the
syncer — contrary to the claim, it is absent from the registered set
afterwards (the whole runtime is left unchanged). -/
theorem C2_counterexample :
    ServiceId.Syncer Blockchain.Bitcoin Network.Testnet ∉
        (helloRegistryUpdate (Runtime.initial 0)
          (ServiceId.Syncer Blockchain.Bitcoin Network.Testnet)).1.registered_services
      ∧ (helloRegistryUpdate (Runtime.initial 0)
          (ServiceId.Syncer Blockchain.Bitcoin Network.Testnet)).1
        = Runtime.initial 0 := by
  constructor
  · decide
  · rfl

/-- C2 (amended): when a Hello arrives from a `Syncer(blockchain, network)`
source, the `ServiceId` is moved from the spawning set to the registered set
if it was present in the spawning set; if it was not, an error is logged and
the runtime — in particular the registered set — is left unchanged, so the
syncer is registered afterwards iff it already was. -/
theorem C2_syncer_hello_registry (rt : Runtime) (b : Blockchain) (n : Network) :
    helloRegistryUpdate rt (ServiceId.Syncer b n)
      = if ServiceId.Syncer b n ∈ rt.spawning_services then
          ({ rt with
              spawning_services := rt.spawning_services.erase (ServiceId.Syncer b n)
              registered_services :=
                setInsert rt.registered_services (ServiceId.Syncer b n) }, [])
        else (rt, []) := by
  simp only [helloRegistryUpdate, setRemove]
  by_cases h : ServiceId.Syncer b n ∈ rt.spawning_services <;> simp [h]

/-- C2, witness: the amended theorem applied at a runtime whose spawning
set holds the syncer, observing the move into the registered set. -/
theorem C2_witness :
    helloRegistryUpdate
        { Runtime.initial 0 with
            spawning_services := [ServiceId.Syncer Blockchain.Monero Network.Mainnet] }
        (ServiceId.Syncer Blockchain.Monero Network.Mainnet)
      = if ServiceId.Syncer Blockchain.Monero Network.Mainnet ∈
            [ServiceId.Syncer Blockchain.Monero Network.Mainnet] then
          ({ { Runtime.initial 0 with
                spawning_services :=
                  [ServiceId.Syncer Blockchain.Monero Network.Mainnet] } with
              spawning_services :=
                List.erase [ServiceId.Syncer Blockchain.Monero Network.Mainnet]
                  (ServiceId.Syncer Blockchain.Monero Network.Mainnet)
              registered_services :=
                setInsert [] (ServiceId.Syncer Blockchain.Monero Network.Mainnet) }, [])
        else
          ({ Runtime.initial 0 with
              spawning_services :=
                [ServiceId.Syncer Blockchain.Monero Network.Mainnet] }, []) :=
  C2_syncer_hello_registry
    { Runtime.initial 0 with
        spawning_services := [ServiceId.Syncer Blockchain.Monero Network.Mainnet] }
    Blockchain.Monero Network.Mainnet

/-- C3, counterexample: in the freshly started runtime the Wallet has not
registered (`services_ready` still fails with "walletd still starting"),
yet `GetInfo` is *not* answered with that failure: the handler performs no
readiness check and replies with a `NodeInfo` unconditionally. -/
theorem C3_counterexample :
    getInfoHandler 5 (Runtime.initial 0) (ServiceId.Client 0)
        = [(ServiceId.Client 0,
            Request.NodeInfo
              { listens := [], uptime := 5, since := 0, peers := [], swaps := [],
                offers := [] })]
      ∧ (Runtime.initial 0).services_ready
        = Except.error "Farcaster not ready yet, walletd still starting" := by
  constructor <;> rfl

/-- C3 (amended): `GetInfo` is answered with a `NodeInfo` reply regardless
of whether the Wallet service has registered — no readiness gate guards it
and it is never answered with a `Failure`; the reply's uptime is the clock
reading minus the start time clamped at zero (hence non-negative), and its
peers list is exactly the addresses of the registered `Peer` services
(empty when none are registered). -/
theorem C3_getinfo_always_nodeinfo (now : Nat) (rt : Runtime) (source : ServiceId) :
    ∃ info : NodeInfoData,
      getInfoHandler now rt source = [(source, Request.NodeInfo info)]
        ∧ info.uptime = (if rt.started ≤ now then now - rt.started else 0)
        ∧ info.peers = rt.registered_services.filterMap
            (fun s => match s with | ServiceId.Peer n => some n | _ => none)
        ∧ ∀ code msg, (source, Request.Failure code msg) ∉ getInfoHandler now rt source := by
  refine ⟨_, rfl, rfl, rfl, ?_⟩
  intro code msg h
  simp only [getInfoHandler, List.mem_singleton, Prod.mk.injEq] at h
  exact Request.noConfusion h.2

/-- C3, witness: the amended theorem applied at a runtime with one
registered peer connection and the wallet still missing. -/
theorem C3_witness :
    ∃ info : NodeInfoData,
      getInfoHandler 9
          { Runtime.initial 2 with registered_services := [ServiceId.Peer 44] }
          (ServiceId.Client 1)
        = [(ServiceId.Client 1, Request.NodeInfo info)]
        ∧ info.uptime = (if (2 : Nat) ≤ 9 then 9 - 2 else 0)
        ∧ info.peers = List.filterMap
            (fun s => match s with | ServiceId.Peer n => some n | _ => none)
            [ServiceId.Peer 44]
        ∧ ∀ code msg,
            (ServiceId.Client 1, Request.Failure code msg) ∉
              getInfoHandler 9
                { Runtime.initial 2 with registered_services := [ServiceId.Peer 44] }
                (ServiceId.Client 1) :=
  C3_getinfo_always_nodeinfo 9
    { Runtime.initial 2 with registered_services := [ServiceId.Peer 44] }
    (ServiceId.Client 1)

/-- C1, counterexample: with one registered clientless syncer whose
`Terminate` delivery fails, `clean_up_after_swap` attempts the `Terminate`
but *keeps* the syncer in the registered set (the filter retains a service
when the send returns an error), whereas the claim says a failed delivery is
treated as a successful removal and the service is dropped anyway. -/
theorem C1_counterexample :
    clean_up_after_swap sendOkC1 rtC1 3
      = Except.ok (rtC1,
          [(ServiceId.Swap 3, Request.Terminate),
           (ServiceId.Database, Request.RemoveCheckpoint 3),
           (ServiceId.Syncer Blockchain.Bitcoin Network.Testnet, Request.Terminate)]) :=
  rfl

/-- C1 (amended): after sending `Terminate` to `Swap(swap_id)` and
`RemoveCheckpoint(swap_id)` to the database, every registered Peer service
that no active trade machine references and every registered Syncer service
with no trade or syncer machine client is sent `Terminate`, and such a
service is dropped from the registered set iff that `Terminate` delivery
succeeds: a failed delivery leaves the service in the registered set. -/
theorem C1_cleanup_terminate (sendOk : ServiceId → Bool) (rt : Runtime) (swapId : SwapId)
    (hswap : sendOk (ServiceId.Swap swapId) = true)
    (hdb : sendOk ServiceId.Database = true) :
    ∃ rt2 sends,
      clean_up_after_swap sendOk rt swapId = Except.ok (rt2, sends)
        ∧ (ServiceId.Swap swapId, Request.Terminate) ∈ sends
        ∧ (ServiceId.Database, Request.RemoveCheckpoint swapId) ∈ sends
        ∧ (∀ addr, ServiceId.Peer addr ∈ rt.registered_services →
             rt.connection_has_swap_client (ServiceId.Peer addr) = false →
             ((ServiceId.Peer addr, Request.Terminate) ∈ sends
               ∧ (ServiceId.Peer addr ∈ rt2.registered_services
                   ↔ sendOk (ServiceId.Peer addr) = false)))
        ∧ (∀ b n, ServiceId.Syncer b n ∈ rt.registered_services →
             rt.syncer_has_client (ServiceId.Syncer b n) = false →
             ((ServiceId.Syncer b n, Request.Terminate) ∈ sends
               ∧ (ServiceId.Syncer b n ∈ rt2.registered_services
                   ↔ sendOk (ServiceId.Syncer b n) = false))) := by
  refine ⟨{ rt with
      registered_services := rt.registered_services.filter (cleanupKeep sendOk rt) },
    (ServiceId.Swap swapId, Request.Terminate)
      :: (ServiceId.Database, Request.RemoveCheckpoint swapId) :: cleanupSends rt,
    ?_, ?_, ?_, ?_, ?_⟩
  · simp [clean_up_after_swap, hswap, hdb]
  · exact List.mem_cons_self _ _
  · exact List.mem_cons_of_mem _ (List.mem_cons_self _ _)
  · intro addr hmem hnoclient
    constructor
    · refine List.mem_cons_of_mem _ (List.mem_cons_of_mem _ ?_)
      simp only [cleanupSends, List.mem_filterMap]
      exact ⟨ServiceId.Peer addr, hmem, by simp [hnoclient]⟩
    · simp only [List.mem_filter, hmem, true_and, cleanupKeep, hnoclient,
        Bool.not_eq_true']
      simp
  · intro b n hmem hnoclient
    constructor
    · refine List.mem_cons_of_mem _ (List.mem_cons_of_mem _ ?_)
      simp only [cleanupSends, List.mem_filterMap]
      exact ⟨ServiceId.Syncer b n, hmem, by simp [hnoclient]⟩
    · simp only [List.mem_filter, hmem, true_and, cleanupKeep, hnoclient,
        Bool.not_eq_true']
      simp

/-- C1, witness: the amended theorem applied at the fixture runtime, with
the all-reachable send oracle. -/
theorem C1_witness :
    (fun _ : ServiceId => true) (ServiceId.Swap 3) = true
      ∧ (fun _ : ServiceId => true) ServiceId.Database = true
      ∧ ∃ rt2 sends,
          clean_up_after_swap (fun _ => true) rtC1 3 = Except.ok (rt2, sends)
            ∧ (ServiceId.Swap 3, Request.Terminate) ∈ sends
            ∧ (ServiceId.Database, Request.RemoveCheckpoint 3) ∈ sends
            ∧ (∀ addr, ServiceId.Peer addr ∈ rtC1.registered_services →
                 rtC1.connection_has_swap_client (ServiceId.Peer addr) = false →
                 ((ServiceId.Peer addr, Request.Terminate) ∈ sends
                   ∧ (ServiceId.Peer addr ∈ rt2.registered_services
                       ↔ (fun _ : ServiceId => true) (ServiceId.Peer addr) = false)))
            ∧ (∀ b n, ServiceId.Syncer b n ∈ rtC1.registered_services →
                 rtC1.syncer_has_client (ServiceId.Syncer b n) = false →
                 ((ServiceId.Syncer b n, Request.Terminate) ∈ sends
                   ∧ (ServiceId.Syncer b n ∈ rt2.registered_services
                       ↔ (fun _ : ServiceId => true) (ServiceId.Syncer b n) = false))) :=
  ⟨rfl, rfl, C1_cleanup_terminate (fun _ => true) rtC1 3 rfl rfl⟩

/-- Helper: mapping a step that never panics over a list yields the plain
map. -/
theorem mapPanics_eq_some_map {α β : Type} (g : α → Option β) (f : α → β) :
    ∀ l : List α, (∀ a ∈ l, g a = some (f a)) → mapPanics g l = some (l.map f) := by
  intro l
  induction l with
  | nil => intro _; rfl
  | cons a rest ih =>
    intro h
    have ha := h a (List.mem_cons_self a rest)
    have hrest := ih (fun x hx => h x (List.mem_cons_of_mem a hx))
    simp [mapPanics, ha, hrest]

/-- Helper: concatenating the parts produced by the last-index-aware
newline closure yields the newline join, for any enumeration offset. -/
theorem concat_enumFrom_joinNl (L : Nat) :
    ∀ (xs : List String) (k : Nat), k + xs.length = L + 1 →
      concatStrings ((List.enumFrom k xs).map
          (fun p => if p.1 < L then p.2 ++ "\n" else p.2))
        = joinNl xs := by
  intro xs
  induction xs with
  | nil => intro k _; simp [List.enumFrom, concatStrings, joinNl]
  | cons x rest ih =>
    intro k hk
    cases rest with
    | nil =>
      have hkL : k = L := by simp at hk; omega
      subst hkL
      simp [List.enumFrom, concatStrings, joinNl]
    | cons y ys =>
      have hkL : k < L := by simp at hk; omega
      have hrec := ih (k + 1) (by simp at hk ⊢; omega)
      rw [show List.enumFrom k (x :: y :: ys)
            = (k, x) :: List.enumFrom (k + 1) (y :: ys) from rfl,
        List.map_cons,
        show ∀ (a : String) (l : List String),
            concatStrings (a :: l) = a ++ concatStrings l from fun _ _ => rfl,
        if_pos hkL, hrec]
      simp [joinNl]

/-- Helper: the `NeedsFunding` formatting pipeline never panics and
produces the newline join of the funding infos. -/
theorem needsFundingReplyBody_eq_joinNl (infos : List String) :
    needsFundingReplyBody infos = some (joinNl infos) := by
  cases infos with
  | nil => simp [needsFundingReplyBody, mapPanics, concatStrings, joinNl, List.enum]
  | cons x rest =>
    have hmap : ∀ p ∈ List.enum (x :: rest),
        (fun p : Nat × String => fmtFundingInfo (x :: rest).length p.1 p.2) p
          = some ((fun p : Nat × String =>
              if p.1 < rest.length then p.2 ++ "\n" else p.2) p) := by
      intro p _
      simp [fmtFundingInfo, checkedSub]
    rw [needsFundingReplyBody, mapPanics_eq_some_map _ _ _ hmap]
    have h0 : List.enum (x :: rest) = List.enumFrom 0 (x :: rest) := rfl
    simp only [Option.map_some', h0, Option.some.injEq]
    exact concat_enumFrom_joinNl rest.length (x :: rest) 0 (by simp)

/-- C10: `NeedsFunding(blockchain)` always replies to the requester with a
single `String`: the funding infos of all trade machines needing funding on
that blockchain joined by newlines (and the empty string when no machine
needs funding, since `joinNl [] = ""`).  The reply is always `some`, i.e.
the `len - 1` arithmetic in the formatting closure is never evaluated on an
empty list and the handler never underflows or panics in any runtime
state. -/
theorem C10_needs_funding_reply (rt : Runtime) (source : ServiceId) (b : Blockchain) :
    needsFundingHandler rt source b
      = some [(source,
          Request.StringReply
            (joinNl
              (match b with
               | Blockchain.Monero =>
                 rt.trade_state_machines.filterMap TradeStateMachine.needs_funding_monero
               | Blockchain.Bitcoin =>
                 rt.trade_state_machines.filterMap TradeStateMachine.needs_funding_bitcoin)))] := by
  cases b <;>
    simp [needsFundingHandler, needsFundingReplyBody_eq_joinNl]

/-- Helper: lookup after insert-or-replace at the same key. -/
theorem alistGet_put_self {α β : Type} [DecidableEq α] (l : List (α × β)) (k : α) (v : β) :
    alistGet (alistPut l k v) k = some v := by
  induction l with
  | nil => simp [alistPut, alistGet]
  | cons p rest ih =>
    by_cases h : p.1 = k
    · simp [alistPut, alistGet, h]
    · cases p with
      | mk k' v' =>
        simp only at h
        simp [alistPut, alistGet, h, ih]

/-- Helper: lookup after insert-or-replace at a different key. -/
theorem alistGet_put_other {α β : Type} [DecidableEq α] (l : List (α × β))
    (k k' : α) (v : β) (h : k' ≠ k) :
    alistGet (alistPut l k v) k' = alistGet l k' := by
  induction l with
  | nil => simp [alistPut, alistGet, Ne.symm h]
  | cons p rest ih =>
    cases p with
    | mk kp vp =>
      by_cases hp : kp = k
      · subst hp
        simp [alistPut, alistGet, Ne.symm h]
      · simp [alistPut, alistGet, hp, ih]

/-- Helper: re-inserting the value already present leaves the list
unchanged. -/
theorem alistPut_get_self {α β : Type} [DecidableEq α] (l : List (α × β)) (k : α)
    (v : β) (h : alistGet l k = some v) : alistPut l k v = l := by
  induction l with
  | nil => simp [alistGet] at h
  | cons p rest ih =>
    cases p with
    | mk kp vp =>
      by_cases hp : kp = k
      · subst hp
        simp [alistGet] at h
        simp [alistPut, h]
      · simp [alistGet, hp] at h
        simp [alistPut, hp, ih h]

/-- Helper: an inserted element is a member. -/
theorem mem_setInsert_self {α : Type} [DecidableEq α] (s : List α) (a : α) :
    a ∈ setInsert s a := by
  by_cases h : a ∈ s <;> simp [setInsert, h]

/-- Helper: inserting a present element leaves the set unchanged. -/
theorem setInsert_eq_of_mem {α : Type} [DecidableEq α] (s : List α) (a : α)
    (h : a ∈ s) : setInsert s a = s := by
  simp [setInsert, h]

/-- C8: `ReadProgress(swap_id)` never modifies the runtime, and replies to
the requester with the entire progress queue of `Swap(swap_id)` in
insertion order as a single `SwapProgress` message; with no queue it
replies `Failure(Unknown, "No progress made yet on this swap")` when a
trade machine with that swap id is running and
`Failure(Unknown, "Unknown swapd")` otherwise. -/
theorem C8_read_progress (rt : Runtime) (source : ServiceId) (swapId : SwapId) :
    (readProgressHandler rt source swapId).1 = rt
      ∧ (∀ queue, alistGet rt.progress (ServiceId.Swap swapId) = some queue →
          (readProgressHandler rt source swapId).2
            = [(source, Request.SwapProgress (queue.map progressEventOf))])
      ∧ (alistGet rt.progress (ServiceId.Swap swapId) = none →
          rt.running_swaps_contain swapId = true →
          (readProgressHandler rt source swapId).2
            = [(source,
                Request.Failure FailureCode.Unknown "No progress made yet on this swap")])
      ∧ (alistGet rt.progress (ServiceId.Swap swapId) = none →
          rt.running_swaps_contain swapId = false →
          (readProgressHandler rt source swapId).2
            = [(source, Request.Failure FailureCode.Unknown "Unknown swapd")]) := by
  cases h : alistGet rt.progress (ServiceId.Swap swapId) with
  | none =>
    refine ⟨?_, ?_, ?_, ?_⟩
    · simp [readProgressHandler, h]
    · intro q hq
      exact absurd hq (by simp)
    · intro _ hrun
      simp [readProgressHandler, h, hrun]
    · intro _ hrun
      simp [readProgressHandler, h, hrun]
  | some queue =>
    refine ⟨?_, ?_, ?_, ?_⟩
    · simp [readProgressHandler, h]
    · intro q hq
      simp only [Option.some.injEq] at hq
      subst hq
      simp [readProgressHandler, h]
    · intro hnone
      exact absurd hnone (by simp)
    · intro hnone
      exact absurd hnone (by simp)

/-- C8, witness: reading the queue of swap 1 in the fixture runtime yields
its single entry as a `SwapProgress`. -/
theorem C8_witness :
    (readProgressHandler rtC8 (ServiceId.Client 2) 1).2
      = [(ServiceId.Client 2,
          Request.SwapProgress [ProgressEvent.Success Outcome.Buy])] :=
  (C8_read_progress rtC8 (ServiceId.Client 2) 1).2.1
    [ProgressReq.Success Outcome.Buy] rfl

/-- C9: a `Progress`, `Success` or `Failure` request from *any* source is
appended at the end of the progress queue keyed by that raw source (the
queue is created on first occurrence and never truncated — the old queue
stays as a prefix), every other queue is untouched; the request is then
forwarded to exactly the current subscribers of that source, and a
subscriber whose send fails is removed from the subscription set while the
other subscription entries are untouched. -/
theorem C9_progress_append_and_notify (sendOk : ServiceId → Bool) (rt : Runtime)
    (source : ServiceId) (req : ProgressReq) :
    alistGet (progressHandler sendOk rt source req).1.progress source
        = some (((alistGet rt.progress source).getD []) ++ [req])
      ∧ (∀ k, k ≠ source →
          alistGet (progressHandler sendOk rt source req).1.progress k
            = alistGet rt.progress k)
      ∧ (progressHandler sendOk rt source req).2
        = ((alistGet rt.progress_subscriptions source).getD []).map
            (fun sub => (sub, req.toRequest))
      ∧ alistGet (progressHandler sendOk rt source req).1.progress_subscriptions source
        = ((alistGet rt.progress_subscriptions source).map
            (fun subs => subs.filter sendOk))
      ∧ (∀ k, k ≠ source →
          alistGet (progressHandler sendOk rt source req).1.progress_subscriptions k
            = alistGet rt.progress_subscriptions k) := by
  cases hsub : alistGet rt.progress_subscriptions source with
  | none =>
    refine ⟨?_, ?_, ?_, ?_, ?_⟩
    · simp only [progressHandler, notify_subscribed_clients, hsub, alistGet_put_self,
        Option.some.injEq]
      cases alistGet rt.progress source <;> rfl
    · intro k hk
      simp [progressHandler, notify_subscribed_clients, hsub,
        alistGet_put_other _ _ _ _ hk]
    · simp [progressHandler, notify_subscribed_clients, hsub]
    · simp [progressHandler, notify_subscribed_clients, hsub]
    · intro k hk
      simp [progressHandler, notify_subscribed_clients, hsub]
  | some subs =>
    refine ⟨?_, ?_, ?_, ?_, ?_⟩
    · simp only [progressHandler, notify_subscribed_clients, hsub, alistGet_put_self,
        Option.some.injEq]
      cases alistGet rt.progress source <;> rfl
    · intro k hk
      simp [progressHandler, notify_subscribed_clients, hsub,
        alistGet_put_other _ _ _ _ hk]
    · simp [progressHandler, notify_subscribed_clients, hsub]
    · simp [progressHandler, notify_subscribed_clients, hsub, alistGet_put_self]
    · intro k hk
      simp [progressHandler, notify_subscribed_clients, hsub,
        alistGet_put_other _ _ _ _ hk]

/-- C9, witness: in the fixture runtime, a `Success(Buy)` from `Swap(5)` is
appended after the queued message, is forwarded to both subscribers, and
the unreachable client 8 is dropped from the subscription set. -/
theorem C9_witness :
    alistGet (progressHandler sendOkC9 rtC9 (ServiceId.Swap 5)
        (ProgressReq.Success Outcome.Buy)).1.progress (ServiceId.Swap 5)
      = some [ProgressReq.Progress (ProgressMsg.Message "a"),
              ProgressReq.Success Outcome.Buy] :=
  (C9_progress_append_and_notify sendOkC9 rtC9 (ServiceId.Swap 5)
    (ProgressReq.Success Outcome.Buy)).1

/-- Helper: on a known swap (running or with a queue), `SubscribeProgress`
records the subscriber under `Swap(swap_id)` and replays the whole queue. -/
theorem subscribeProgressHandler_true_char (rt : Runtime) (source : ServiceId)
    (swapId : SwapId)
    (hcond : (rt.running_swaps_contain swapId
        || (alistGet rt.progress (ServiceId.Swap swapId)).isSome) = true) :
    subscribeProgressHandler rt source swapId
      = ({ rt with
            progress_subscriptions :=
              alistPut rt.progress_subscriptions (ServiceId.Swap swapId)
                (setInsert
                  ((alistGet rt.progress_subscriptions (ServiceId.Swap swapId)).getD [])
                  source) },
         ((alistGet rt.progress (ServiceId.Swap swapId)).getD []).map
           (fun req => (source, req.toRequest))) := by
  cases hq : alistGet rt.progress (ServiceId.Swap swapId) with
  | none =>
    have hrun : rt.running_swaps_contain swapId = true := by
      simpa [hq] using hcond
    cases hs : alistGet rt.progress_subscriptions (ServiceId.Swap swapId) with
    | none => simp [subscribeProgressHandler, hrun, hs, hq, setInsert]
    | some s => simp [subscribeProgressHandler, hrun, hs, hq]
  | some q =>
    cases hs : alistGet rt.progress_subscriptions (ServiceId.Swap swapId) with
    | none => simp [subscribeProgressHandler, hs, hq, setInsert]
    | some s => simp [subscribeProgressHandler, hs, hq]

/-- Helper: subscribing a source that is already in the subscription set of
a known swap leaves the runtime unchanged. -/
theorem subscribeProgressHandler_already (rt : Runtime) (source : ServiceId)
    (swapId : SwapId)
    (hcond : (rt.running_swaps_contain swapId
        || (alistGet rt.progress (ServiceId.Swap swapId)).isSome) = true)
    (s : List ServiceId)
    (hs : alistGet rt.progress_subscriptions (ServiceId.Swap swapId) = some s)
    (hmem : source ∈ s) :
    (subscribeProgressHandler rt source swapId).1 = rt := by
  rw [subscribeProgressHandler_true_char rt source swapId hcond]
  simp only [hs, Option.getD_some, setInsert_eq_of_mem _ _ hmem,
    alistPut_get_self _ _ _ hs]

/-- C7: `SubscribeProgress(swap_id)` succeeds iff the swap is running or a
progress queue exists for it.  On success the requesting source is inserted
into the swap's subscription set (other subscription entries, the progress
queues and the machines are untouched; a second subscribe by the same
source leaves the state unchanged) and every event already in the progress
queue is replayed to the new subscriber in insertion order; otherwise the
source receives `Failure(Unknown, "Unknown swapd")` and nothing is
recorded. -/
theorem C7_subscribe_progress (rt : Runtime) (source : ServiceId) (swapId : SwapId) :
    ((rt.running_swaps_contain swapId
        || (alistGet rt.progress (ServiceId.Swap swapId)).isSome) = false →
      subscribeProgressHandler rt source swapId
        = (rt, [(source, Request.Failure FailureCode.Unknown "Unknown swapd")]))
    ∧ ((rt.running_swaps_contain swapId
        || (alistGet rt.progress (ServiceId.Swap swapId)).isSome) = true →
      (alistGet (subscribeProgressHandler rt source swapId).1.progress_subscriptions
            (ServiceId.Swap swapId)
          = some (setInsert
              ((alistGet rt.progress_subscriptions (ServiceId.Swap swapId)).getD [])
              source)
        ∧ source ∈ setInsert
            ((alistGet rt.progress_subscriptions (ServiceId.Swap swapId)).getD [])
            source
        ∧ (∀ k, k ≠ ServiceId.Swap swapId →
            alistGet (subscribeProgressHandler rt source swapId).1.progress_subscriptions k
              = alistGet rt.progress_subscriptions k)
        ∧ (subscribeProgressHandler rt source swapId).1.progress = rt.progress
        ∧ (subscribeProgressHandler rt source swapId).1.trade_state_machines
          = rt.trade_state_machines
        ∧ (subscribeProgressHandler rt source swapId).2
          = ((alistGet rt.progress (ServiceId.Swap swapId)).getD []).map
              (fun req => (source, req.toRequest))
        ∧ (subscribeProgressHandler
              (subscribeProgressHandler rt source swapId).1 source swapId).1
          = (subscribeProgressHandler rt source swapId).1)) := by
  constructor
  · intro hcond
    simp [subscribeProgressHandler, hcond]
  · intro hcond
    rw [subscribeProgressHandler_true_char rt source swapId hcond]
    refine ⟨alistGet_put_self _ _ _, mem_setInsert_self _ _, ?_, rfl, rfl, rfl, ?_⟩
    · intro k hk
      exact alistGet_put_other _ _ _ _ hk
    · exact subscribeProgressHandler_already _ source swapId hcond _
        (alistGet_put_self _ _ _) (mem_setInsert_self _ _)

/-- C7, witness: subscribing client 3 to the running swap 9 of the fixture
runtime records the subscription. -/
theorem C7_witness :
    alistGet (subscribeProgressHandler rtC7 (ServiceId.Client 3) 9).1.progress_subscriptions
        (ServiceId.Swap 9)
      = some (setInsert
          ((alistGet rtC7.progress_subscriptions (ServiceId.Swap 9)).getD [])
          (ServiceId.Client 3)) :=
  ((C7_subscribe_progress rtC7 (ServiceId.Client 3) 9).2 (by decide)).1

/-- Helper: insert-or-replace at an absent key appends the binding. -/
theorem alistPut_of_not_mem {α β : Type} [DecidableEq α] :
    ∀ (l : List (α × β)) (k : α) (v : β), (∀ q ∈ l, q.1 ≠ k) →
      alistPut l k v = l ++ [(k, v)] := by
  intro l
  induction l with
  | nil => intro k v _; rfl
  | cons q rest ih =>
    intro k v h
    cases q with
    | mk kq vq =>
      have hkq : kq ≠ k := h (kq, vq) (List.mem_cons_self _ _)
      simp [alistPut, hkq, ih k v (fun q hq => h q (List.mem_cons_of_mem _ hq))]

/-- Helper: the Hello broadcast over the trade machines advances each
machine once, keeping exactly (in order) the non-terminal successors after
the accumulator. -/
theorem helloBroadcastTrade_eq (nextT : NextTrade) (source : ServiceId) :
    ∀ (l acc : List TradeStateMachine),
      helloBroadcastTrade nextT source l acc
        = acc ++ l.filterMap (fun tsm => nextT tsm Request.Hello source) := by
  intro l
  induction l with
  | nil => intro acc; simp [helloBroadcastTrade]
  | cons tsm rest ih =>
    intro acc
    cases h : nextT tsm Request.Hello source with
    | some newTsm => simp [helloBroadcastTrade, h, ih, List.filterMap_cons]
    | none => simp [helloBroadcastTrade, h, ih, List.filterMap_cons]

/-- Helper: the Hello broadcast over the syncer machines advances each
machine once and reinserts a surviving machine under its original key,
provided the keys are distinct and disjoint from the accumulator's. -/
theorem helloBroadcastSyncer_eq (nextS : NextSyncer) (source : ServiceId) :
    ∀ (l acc : List (TaskId × SyncerStateMachine)),
      (∀ p ∈ l, ∀ q ∈ acc, p.1 ≠ q.1) →
      (l.map Prod.fst).Nodup →
      helloBroadcastSyncer nextS source l acc
        = acc ++ l.filterMap
            (fun p => (nextS p.2 Request.Hello source).map (fun n => (p.1, n))) := by
  intro l
  induction l with
  | nil => intro acc _ _; simp [helloBroadcastSyncer]
  | cons p rest ih =>
    intro acc hdisj hnodup
    cases p with
    | mk taskId ssm =>
      have hnodup' : (rest.map Prod.fst).Nodup := (List.nodup_cons.mp hnodup).2
      have hnotin : ∀ q ∈ rest, q.1 ≠ taskId := by
        intro q hq hqe
        have hmem : q.1 ∈ rest.map Prod.fst := List.mem_map_of_mem Prod.fst hq
        rw [hqe] at hmem
        exact (List.nodup_cons.mp hnodup).1 hmem
      cases h : nextS ssm Request.Hello source with
      | some newSsm =>
        have hput : alistPut acc taskId newSsm = acc ++ [(taskId, newSsm)] :=
          alistPut_of_not_mem acc taskId newSsm
            (fun q hq => (hdisj (taskId, ssm) (List.mem_cons_self _ _) q hq).symm)
        have hdisj' : ∀ p ∈ rest, ∀ q ∈ acc ++ [(taskId, newSsm)], p.1 ≠ q.1 := by
          intro p hp q hq
          rcases List.mem_append.mp hq with hq | hq
          · exact hdisj p (List.mem_cons_of_mem _ hp) q hq
          · simp only [List.mem_singleton] at hq
            subst hq
            exact hnotin p hp
        simp [helloBroadcastSyncer, h, hput, ih _ hdisj' hnodup', List.filterMap_cons]
      | none =>
        have hdisj' : ∀ p ∈ rest, ∀ q ∈ acc, p.1 ≠ q.1 :=
          fun p hp q hq => hdisj p (List.mem_cons_of_mem _ hp) q hq
        simp [helloBroadcastSyncer, h, ih _ hdisj' hnodup', List.filterMap_cons]

/-- Helper: the registry part of the Hello handler never touches the state
machine collections. -/
theorem helloRegistryUpdate_machines (rt : Runtime) (source : ServiceId) :
    (helloRegistryUpdate rt source).1.trade_state_machines = rt.trade_state_machines
      ∧ (helloRegistryUpdate rt source).1.syncer_state_machines
        = rt.syncer_state_machines := by
  cases source <;>
    simp only [helloRegistryUpdate, setRemove] <;>
    try exact ⟨trivial, trivial⟩
  constructor <;> (split <;> rfl)

/-- C6: for every Hello received on the Ctl bus, after the registry update
(whose outcome on the registered/spawning sets and outbound sends is that
of `helloRegistryUpdate`) every currently held trade state machine and
every currently held syncer state machine is advanced exactly once with the
Hello event; a machine whose transition returns a successor state is
reinserted into its collection — a syncer machine under its original
`TaskId` key — and a machine whose transition terminates contributes
nothing, which the `filterMap` characterisation states exactly.  The key
set of the syncer map is assumed duplicate-free, which `HashMap::drain`
guarantees in the source. -/
theorem C6_hello_broadcast (nextT : NextTrade) (nextS : NextSyncer) (rt : Runtime)
    (source : ServiceId)
    (hkeys : (rt.syncer_state_machines.map Prod.fst).Nodup) :
    (helloHandler nextT nextS rt source).1.trade_state_machines
        = rt.trade_state_machines.filterMap (fun tsm => nextT tsm Request.Hello source)
      ∧ (helloHandler nextT nextS rt source).1.syncer_state_machines
        = rt.syncer_state_machines.filterMap
            (fun p => (nextS p.2 Request.Hello source).map (fun n => (p.1, n)))
      ∧ (helloHandler nextT nextS rt source).2 = (helloRegistryUpdate rt source).2
      ∧ (helloHandler nextT nextS rt source).1.registered_services
        = (helloRegistryUpdate rt source).1.registered_services
      ∧ (helloHandler nextT nextS rt source).1.spawning_services
        = (helloRegistryUpdate rt source).1.spawning_services := by
  obtain ⟨hT, hS⟩ := helloRegistryUpdate_machines rt source
  refine ⟨?_, ?_, rfl, rfl, rfl⟩
  · show helloBroadcastTrade nextT source
        (helloRegistryUpdate rt source).1.trade_state_machines [] = _
    rw [hT, helloBroadcastTrade_eq]
    simp
  · show helloBroadcastSyncer nextS source
        (helloRegistryUpdate rt source).1.syncer_state_machines [] = _
    rw [hS, helloBroadcastSyncer_eq nextS source _ []
      (by intro p _ q hq; exact absurd hq (List.not_mem_nil q)) hkeys]
    simp

/-- C6, witness: in the fixture runtime a Wallet Hello advances both trade
machines (dropping the terminating taker) and both syncer machines
(dropping the `Start` one, keeping the awaiting one under key 1). -/
theorem C6_witness :
    (helloHandler nextTW nextSW rtC6 ServiceId.Wallet).1.trade_state_machines
      = rtC6.trade_state_machines.filterMap
          (fun tsm => nextTW tsm Request.Hello ServiceId.Wallet) :=
  (C6_hello_broadcast nextTW nextSW rtC6 ServiceId.Wallet (by decide)).1

/-- Helper: unfolding of `extractFirst` on a cons cell. -/
theorem extractFirst_cons {α : Type} (p : α → Bool) (x : α) (xs : List α) :
    extractFirst p (x :: xs)
      = if p x then (some x, xs)
        else ((extractFirst p xs).1, x :: (extractFirst p xs).2) := by
  cases hE : extractFirst p xs with
  | mk r rest => simp [extractFirst, hE]

/-- Helper: a fruitless search leaves the list unchanged and means no
element satisfies the predicate. -/
theorem extractFirst_none {α : Type} (p : α → Bool) :
    ∀ l : List α, (extractFirst p l).1 = none →
      (extractFirst p l).2 = l ∧ ∀ x ∈ l, p x = false := by
  intro l
  induction l with
  | nil => intro _; exact ⟨rfl, by simp⟩
  | cons x xs ih =>
    intro h
    by_cases hx : p x
    · rw [extractFirst_cons, if_pos hx] at h
      exact absurd h (by simp)
    · rw [extractFirst_cons, if_neg hx] at h ⊢
      simp only at h
      obtain ⟨h1, h2⟩ := ih h
      refine ⟨by simp [h1], ?_⟩
      intro u hu
      rcases List.mem_cons.mp hu with hu | hu
      · subst hu
        exact Bool.eq_false_iff.mpr hx
      · exact h2 u hu

/-- Helper: a successful search removes exactly the first matching
element. -/
theorem extractFirst_some {α : Type} (p : α → Bool) :
    ∀ (l : List α) (a : α), (extractFirst p l).1 = some a →
      ∃ l1 l2, l = l1 ++ a :: l2 ∧ (extractFirst p l).2 = l1 ++ l2
        ∧ (∀ u ∈ l1, p u = false) ∧ p a = true := by
  intro l
  induction l with
  | nil => intro a h; exact absurd h (by simp [extractFirst])
  | cons x xs ih =>
    intro a h
    by_cases hx : p x
    · rw [extractFirst_cons, if_pos hx] at h ⊢
      simp only [Option.some.injEq] at h
      subst h
      exact ⟨[], xs, by simp, by simp, by simp, hx⟩
    · rw [extractFirst_cons, if_neg hx] at h ⊢
      simp only at h
      obtain ⟨l1, l2, hl, hrest, hleft, hp⟩ := ih a h
      refine ⟨x :: l1, l2, by simp [hl], by simp [hrest], ?_, hp⟩
      intro u hu
      rcases List.mem_cons.mp hu with hu | hu
      · subst hu
        exact Bool.eq_false_iff.mpr hx
      · exact hleft u hu

/-- Helper: a successful association-list lookup decomposes the list at the
first occurrence of the key, and removal drops exactly that binding. -/
theorem alistGet_some_decomp {α β : Type} [DecidableEq α] :
    ∀ (l : List (α × β)) (k : α) (v : β), alistGet l k = some v →
      ∃ l1 l2, l = l1 ++ (k, v) :: l2 ∧ (∀ q ∈ l1, q.1 ≠ k)
        ∧ alistDrop l k = l1 ++ l2 := by
  intro l
  induction l with
  | nil => intro k v h; exact absurd h (by simp [alistGet])
  | cons q rest ih =>
    intro k v h
    cases q with
    | mk kq vq =>
      by_cases hk : kq = k
      · subst hk
        simp only [alistGet, if_pos, Option.some.injEq] at h
        subst h
        exact ⟨[], rest, by simp, by simp, by simp [alistDrop]⟩
      · simp only [alistGet, if_neg hk] at h
        obtain ⟨l1, l2, hl, hq1, hdrop⟩ := ih k v h
        refine ⟨(kq, vq) :: l1, l2, by simp [hl], ?_, by simp [alistDrop, hk, hdrop]⟩
        intro q hq
        rcases List.mem_cons.mp hq with hq | hq
        · subst hq
          exact hk
        · exact hq1 q hq

/-- Helper: removing an absent key is the identity. -/
theorem alistDrop_of_get_none {α β : Type} [DecidableEq α] :
    ∀ (l : List (α × β)) (k : α), alistGet l k = none → alistDrop l k = l := by
  intro l
  induction l with
  | nil => intro k _; rfl
  | cons q rest ih =>
    intro k h
    cases q with
    | mk kq vq =>
      by_cases hk : kq = k
      · subst hk
        simp [alistGet] at h
      · simp only [alistGet, if_neg hk] at h
        simp [alistDrop, hk, ih k h]

/-- Helper: the trade router equals a start-state construction or a
first-match extraction, according to the correlation table. -/
theorem match_trade_char (rt : Runtime) (req : Request) (source : ServiceId) :
    match_request_to_trade_state_machine rt req source
      = match tradeRouteKey req source with
        | some p =>
          ((extractFirst p rt.trade_state_machines).1,
           { rt with
              trade_state_machines := (extractFirst p rt.trade_state_machines).2 })
        | none => (startTradeState req, rt) := by
  cases req <;> cases source <;> rfl

/-- C5: router dispatch.  For every non-Hello request: a trade lookup
removes exactly the first machine whose correlation key (open offer,
consumed offer or swap id, per `tradeRouteKey`) matches — so at most one
machine is matched — while a start request constructs a fresh start state
and removes nothing; a `SweepSuccess` removes exactly the first machine
keyed by its task id and `SweepAddress` constructs `Start`; the removed
machine is advanced once and reinserted iff `next` returns a successor
(a successor syncer machine is keyed by its task id, which the spec-modelled
`SyncerStateMachine::next` always provides — hypothesis `hS`); and a
request that matches no machine and no start-state constructor leaves the
whole runtime unchanged (the source logs a warning and returns `Ok`). -/
theorem C5_router_dispatch (nextT : NextTrade) (nextS : NextSyncer)
    (rt : Runtime) (req : Request) (source : ServiceId)
    (hS : ∀ ssm r s n, nextS ssm r s = some n →
      (SyncerStateMachine.task_id n).isSome = true) :
    ((match_request_to_trade_state_machine rt req source).1 = none →
        (match_request_to_trade_state_machine rt req source).2 = rt)
    ∧ (∀ t rt1 p, match_request_to_trade_state_machine rt req source = (some t, rt1) →
        tradeRouteKey req source = some p →
        ∃ l1 l2, rt.trade_state_machines = l1 ++ t :: l2
          ∧ rt1 = { rt with trade_state_machines := l1 ++ l2 }
          ∧ (∀ u ∈ l1, p u = false) ∧ p t = true)
    ∧ (∀ t rt1, match_request_to_trade_state_machine rt req source = (some t, rt1) →
        tradeRouteKey req source = none →
        rt1 = rt ∧ startTradeState req = some t)
    ∧ ((match_request_to_syncer_state_machine rt req source).1 = none →
        (match_request_to_syncer_state_machine rt req source).2 = rt)
    ∧ (∀ s rt1, match_request_to_syncer_state_machine rt req source = (some s, rt1) →
        ((req = Request.SweepAddress ∧ s = SyncerStateMachine.Start ∧ rt1 = rt)
          ∨ ∃ id l1 l2, req = Request.SweepSuccess id
              ∧ rt.syncer_state_machines = l1 ++ (id, s) :: l2
              ∧ (∀ q ∈ l1, q.1 ≠ id)
              ∧ rt1 = { rt with syncer_state_machines := l1 ++ l2 }))
    ∧ (∀ t rt1, match_request_to_trade_state_machine rt req source = (some t, rt1) →
        ((nextT t req source = none →
            process_request_with_state_machines nextT nextS rt req source = rt1)
          ∧ ∀ n, nextT t req source = some n →
              process_request_with_state_machines nextT nextS rt req source
                = { rt1 with
                    trade_state_machines := rt1.trade_state_machines ++ [n] }))
    ∧ (∀ s rt1, (match_request_to_trade_state_machine rt req source).1 = none →
        match_request_to_syncer_state_machine rt req source = (some s, rt1) →
        ((nextS s req source = none →
            process_request_with_state_machines nextT nextS rt req source = rt1)
          ∧ ∀ n, nextS s req source = some n →
              ∃ tid, n.task_id = some tid
                ∧ process_request_with_state_machines nextT nextS rt req source
                  = { rt1 with
                      syncer_state_machines := alistPut rt1.syncer_state_machines tid n }))
    ∧ ((match_request_to_trade_state_machine rt req source).1 = none →
        (match_request_to_syncer_state_machine rt req source).1 = none →
        process_request_with_state_machines nextT nextS rt req source = rt) := by
  refine ⟨?_, ?_, ?_, ?_, ?_, ?_, ?_, ?_⟩
  · -- trade no-match leaves the runtime unchanged
    intro hfst
    rw [match_trade_char] at hfst ⊢
    cases hkey : tradeRouteKey req source with
    | none => rfl
    | some p =>
      rw [hkey] at hfst
      obtain ⟨h2, _⟩ := extractFirst_none p rt.trade_state_machines hfst
      show { rt with trade_state_machines := (extractFirst p rt.trade_state_machines).2 }
        = rt
      rw [h2]
  · -- trade lookup removes exactly the first key match
    intro t rt1 p hmatch hkey
    rw [match_trade_char, hkey] at hmatch
    have hfst : (extractFirst p rt.trade_state_machines).1 = some t :=
      congrArg Prod.fst hmatch
    have hsnd :
        { rt with trade_state_machines := (extractFirst p rt.trade_state_machines).2 }
          = rt1 :=
      congrArg Prod.snd hmatch
    obtain ⟨l1, l2, hl, hrest, hleft, hp⟩ :=
      extractFirst_some p rt.trade_state_machines t hfst
    refine ⟨l1, l2, hl, ?_, hleft, hp⟩
    rw [← hsnd, hrest]
  · -- trade start states construct without removing
    intro t rt1 hmatch hkey
    rw [match_trade_char, hkey] at hmatch
    exact ⟨(congrArg Prod.snd hmatch).symm, congrArg Prod.fst hmatch⟩
  · -- syncer no-match leaves the runtime unchanged
    intro hfst
    cases req <;> try rfl
    case SweepSuccess id =>
      have hget : alistGet rt.syncer_state_machines id = none := hfst
      show { rt with
          syncer_state_machines := alistDrop rt.syncer_state_machines id } = rt
      rw [alistDrop_of_get_none _ _ hget]
  · -- syncer matches are Start construction or first-key removal
    intro s rt1 hmatch
    cases req
    all_goals
      try exact Option.noConfusion (congrArg Prod.fst hmatch)
    case SweepAddress =>
      left
      have h1 : some SyncerStateMachine.Start = some s := congrArg Prod.fst hmatch
      have h2 : rt = rt1 := congrArg Prod.snd hmatch
      simp only [Option.some.injEq] at h1
      exact ⟨rfl, h1.symm, h2.symm⟩
    case SweepSuccess id =>
      right
      have h1 : alistGet rt.syncer_state_machines id = some s :=
        congrArg Prod.fst hmatch
      have h2 : { rt with
          syncer_state_machines := alistDrop rt.syncer_state_machines id } = rt1 :=
        congrArg Prod.snd hmatch
      obtain ⟨l1, l2, hl, hq, hdrop⟩ := alistGet_some_decomp _ _ _ h1
      exact ⟨id, l1, l2, rfl, hl, hq, by rw [← h2, hdrop]⟩
  · -- a matched trade machine is reinserted iff next returns a successor
    intro t rt1 hmatch
    constructor
    · intro hnone
      simp only [process_request_with_state_machines, hmatch, hnone]
    · intro n hsome
      simp only [process_request_with_state_machines, hmatch, hsome]
  · -- a matched syncer machine is reinserted under its task id iff
    -- next returns a successor
    intro s rt1 hTfst hmatch
    cases hMe : match_request_to_trade_state_machine rt req source with
    | mk mf ms =>
      rw [hMe] at hTfst
      simp only at hTfst
      subst hTfst
      constructor
      · intro hnone
        simp only [process_request_with_state_machines, hMe, hmatch, hnone]
      · intro n hsome
        obtain ⟨tid, htid⟩ := Option.isSome_iff_exists.mp (hS s req source n hsome)
        refine ⟨tid, htid, ?_⟩
        simp only [process_request_with_state_machines, hMe, hmatch, hsome, htid]
  · -- a request matching nothing leaves the runtime unchanged
    intro hTfst hSfst
    cases hMe : match_request_to_trade_state_machine rt req source with
    | mk mf ms =>
      cases hSe : match_request_to_syncer_state_machine rt req source with
      | mk sf ss =>
        rw [hMe] at hTfst
        rw [hSe] at hSfst
        simp only at hTfst hSfst
        subst hTfst
        subst hSfst
        simp only [process_request_with_state_machines, hMe, hSe]

/-- C5, witness: a `GetInfo` on the Ctl bus matches no state machine and no
start-state constructor, and the router leaves the fixture runtime
unchanged. -/
theorem C5_witness :
    process_request_with_state_machines nextTW nextSW rtC6 Request.GetInfo
        (ServiceId.Client 1) = rtC6 :=
  (C5_router_dispatch nextTW nextSW rtC6 Request.GetInfo (ServiceId.Client 1)
      (by
        intro ssm r s n h
        cases ssm with
        | Start => simp [nextSW] at h
        | AwaitingSweep t syncer =>
          simp only [nextSW] at h
          injection h with h
          subst h
          rfl)).2.2.2.2.2.2.2 rfl rfl

end Farcaster
